import Mathlib

/-!
Verification of the coordination core and resilience layer of the
Gen-Authering repository.

The Python sources embedded here are:
* `mcp.py` — `create_mcp_message`, `get_conversation_id`;
* `agents/langgraph_coordinator.py` — `LangGraphCoordinator` with
  `register_node`, `add_edge`, `send`, `_dispatch`, `run_once`,
  `get_conversation_events`;
* `utils/resilience.py` — `retry_with_backoff`, `_calculate_delay`,
  `CircuitBreaker`, `RateLimiter`.

Modelling conventions: Python dicts with a fixed key set become structures
with `Option` fields for keys that may be absent; wall-clock readings and
generated uuids are passed in explicitly (an `Env` carries the clock value
and a uuid supply, and a counter of consumed uuids is threaded through
dispatch); exceptions become `Except`/sum results; the unbounded
`while not empty` drain loop is given explicit fuel and returns `none`
when the fuel does not suffice (the Python loop would still be running).
Numeric time and token quantities use `ℚ`.
-/

/-- The `metadata` sub-dictionary of an MCP message
(`mcp.py` builds it with keys `timestamp` and `conversation_id`;
either value may be `None`, modelled as `none`). -/
structure Metadata where
  timestamp : Option String
  conversation_id : Option String
  deriving DecidableEq

/-- An MCP message dictionary (`mcp.py`, `create_mcp_message`): the keys
`role`, `name` and `metadata` may be absent on messages built by hand
(the coordinator accesses them with `.get`), hence the `Option`s.
The `content` payload is kept abstract in `α`. -/
structure MCPMessage (α : Type) where
  role : Option String
  name : Option String
  content : α
  metadata : Option Metadata
  deriving DecidableEq

/-- `mcp.py`, `create_mcp_message(role, name, content, conversation_id=None)`:
builds a fully populated message.  `conversation_id or str(uuid.uuid4())`
falls back to a fresh uuid when the argument is `None` or the empty string
(Python truthiness on strings); the clock reading and the fresh uuid are
explicit arguments `now` and `fresh`. -/
def create_mcp_message (role name : String) (content : α)
    (conversation_id : Option String) (now fresh : String) : MCPMessage α :=
  { role := some role
    name := some name
    content := content
    metadata := some
      { timestamp := some now
        conversation_id := some (match conversation_id with
          | some s => if s = "" then fresh else s
          | none => fresh) } }

/-- `mcp.py`, `get_conversation_id`:
`msg.get("metadata", {}).get("conversation_id")`. -/
def get_conversation_id (msg : MCPMessage α) : Option String :=
  msg.metadata.bind Metadata.conversation_id

/-- A registered node behaviour: Python `callable(msg, send)`.  The value
returned by the Python callable is modelled by `PyResult`; the calls the
node itself makes to the `send` capability during its execution are
returned as the list component (in call order); a raised exception is the
`Except.error` case.  A node that sends some messages and then raises is
`(sent, .error e)`. -/
inductive PyResult (α : Type) where
  /-- A falsy return value (`None`, `{}`, …). -/
  | falsy : PyResult α
  /-- A truthy (non-empty) dict return value; `content` is the value at its
  `"content"` key when present. -/
  | dict (content : Option α) : PyResult α
  deriving DecidableEq

def NodeFn (α ε : Type) : Type :=
  MCPMessage α → List (MCPMessage α) × Except ε (PyResult α)

/-- Truthiness of a node's return value
(`if target_name in self.edges and result:`). -/
def pyTruthy : PyResult α → Bool
  | .falsy => false
  | .dict _ => true

/-- External effect parameters: the wall-clock string `time.strftime(...)`
reads, the `uuid.uuid4()` supply (indexed by how many uuids were consumed
so far), and the empty dict `{}` used as the default payload by
`result.get("content", {})`. -/
structure Env (α : Type) where
  now : String
  uuid : Nat → String
  emptyContent : α

/-- `agents/langgraph_coordinator.py`, `LangGraphCoordinator.__init__`:
message queue, node registry, edge adjacency dict, conversation log and
the (unused) `running` flag. -/
structure LangGraphCoordinator (α ε : Type) where
  msg_queue : List (MCPMessage α)
  nodes : String → Option (NodeFn α ε)
  edges : String → Option (List String)
  consumers_log : List (MCPMessage α)
  running : Bool

namespace LangGraphCoordinator

/-- Fresh coordinator: empty queue, empty dicts, empty log. -/
def init : LangGraphCoordinator α ε :=
  { msg_queue := []
    nodes := fun _ => none
    edges := fun _ => none
    consumers_log := []
    running := false }

/-- `register_node(name, fn)`: dictionary insertion, overwriting. -/
def register_node (st : LangGraphCoordinator α ε) (name : String)
    (fn : NodeFn α ε) : LangGraphCoordinator α ε :=
  { st with nodes := fun n => if n = name then some fn else st.nodes n }

/-- `add_edge(source, target)`: create the successor list on first use,
then append (duplicates allowed). -/
def add_edge (st : LangGraphCoordinator α ε) (source target : String) :
    LangGraphCoordinator α ε :=
  { st with edges := fun n =>
      if n = source then some ((st.edges source).getD [] ++ [target])
      else st.edges n }

/-- The metadata canonicalization performed by `send`: when the
`"metadata"` key is absent it is set to
`{"timestamp": time.strftime(...), "conversation_id": None}`;
otherwise the message is left untouched. -/
def normalize (now : String) (msg : MCPMessage α) : MCPMessage α :=
  match msg.metadata with
  | none => { msg with metadata := some { timestamp := some now, conversation_id := none } }
  | some _ => msg

/-- `send(mcp_msg)`: canonicalize minimal metadata, then
`self.msg_queue.put(mcp_msg)` (FIFO append). -/
def send (env : Env α) (st : LangGraphCoordinator α ε) (msg : MCPMessage α) :
    LangGraphCoordinator α ε :=
  { st with msg_queue := st.msg_queue ++ [normalize env.now msg] }

/-- The loop body `for next_node in self.edges[target_name]:
next_msg = create_mcp_message("node", next_node, result.get("content", {}));
self.send(next_msg)` — one synthesized envelope per edge target, each
consuming one fresh uuid (no `conversation_id` argument is passed). -/
def routeMsgs (env : Env α) (targets : List String) (payload : α) (cnt : Nat) :
    List (MCPMessage α) :=
  match targets with
  | [] => []
  | t :: ts =>
    create_mcp_message "node" t payload none env.now (env.uuid cnt) ::
      routeMsgs env ts payload (cnt + 1)

/-- `result.get("content", {})`. -/
def resultContent (env : Env α) : PyResult α → α
  | .falsy => env.emptyContent
  | .dict c => c.getD env.emptyContent

/-- `_dispatch(mcp_msg)`: look up `mcp_msg.get("name")` in the registry,
append the message to `consumers_log`, invoke the node inside
`try/except` (its own `send` calls are enqueued first), and on a truthy
result route `result.get("content", {})` along the outgoing edges via
`send`.  Returns the updated coordinator and the updated uuid counter. -/
def dispatch (env : Env α) (st : LangGraphCoordinator α ε) (cnt : Nat)
    (msg : MCPMessage α) : LangGraphCoordinator α ε × Nat :=
  let logged := { st with consumers_log := st.consumers_log ++ [msg] }
  match msg.name with
  | none => (logged, cnt)
  | some tn =>
    match st.nodes tn with
    | none => (logged, cnt)
    | some fn =>
      let r := fn msg
      let st1 := r.1.foldl (fun s m => send env s m) logged
      match r.2 with
      | .error _ => (st1, cnt)
      | .ok result =>
        if (st1.edges tn).isSome && pyTruthy result then
          let routed := routeMsgs env ((st1.edges tn).getD [])
            (resultContent env result) cnt
          (routed.foldl (fun s m => send env s m) st1, cnt + routed.length)
        else (st1, cnt)

/-- `run_once()`: `while not self.msg_queue.empty(): msg = get(); _dispatch(msg)`.
The loop is given explicit fuel; `none` means the fuel was exhausted with
the queue still non-empty (the Python loop would still be iterating). -/
def run_once (env : Env α) :
    Nat → LangGraphCoordinator α ε → Nat → Option (LangGraphCoordinator α ε × Nat)
  | fuel, st, cnt =>
    match st.msg_queue with
    | [] => some (st, cnt)
    | m :: rest =>
      match fuel with
      | 0 => none
      | fuel + 1 =>
        let p := dispatch env { st with msg_queue := rest } cnt m
        run_once env fuel p.1 p.2

/-- `get_conversation_events(conversation_id=None)`: the whole log, or the
log filtered to the messages whose metadata conversation id equals the
requested one, in log order. -/
def get_conversation_events (st : LangGraphCoordinator α ε)
    (conversation_id : Option String) : List (MCPMessage α) :=
  match conversation_id with
  | none => st.consumers_log
  | some cid => st.consumers_log.filter fun m => get_conversation_id m = some cid

/-- The messages a single `_dispatch` of `msg` appends to the queue, as a
function of the registry, the edges, and the uuid counter: the node's own
`send`s (normalized) followed by the edge-routed envelopes. -/
def produced (env : Env α) (nodes : String → Option (NodeFn α ε))
    (edges : String → Option (List String)) (cnt : Nat) (msg : MCPMessage α) :
    List (MCPMessage α) :=
  match msg.name with
  | none => []
  | some tn =>
    match nodes tn with
    | none => []
    | some fn =>
      let r := fn msg
      let base := r.1.map (normalize env.now)
      match r.2 with
      | .error _ => base
      | .ok result =>
        if (edges tn).isSome && pyTruthy result then
          base ++ (routeMsgs env ((edges tn).getD [])
            (resultContent env result) cnt).map (normalize env.now)
        else base

/-- The number of uuids a single `_dispatch` of `msg` consumes. -/
def uuidsUsed (nodes : String → Option (NodeFn α ε))
    (edges : String → Option (List String)) (msg : MCPMessage α) : Nat :=
  match msg.name with
  | none => 0
  | some tn =>
    match nodes tn with
    | none => 0
    | some fn =>
      let r := fn msg
      match r.2 with
      | .error _ => 0
      | .ok result =>
        if (edges tn).isSome && pyTruthy result then ((edges tn).getD []).length
        else 0

theorem routeMsgs_length (env : Env α) (targets : List String) (payload : α)
    (cnt : Nat) : (routeMsgs env targets payload cnt).length = targets.length := by
  induction targets generalizing cnt with
  | nil => rfl
  | cons t ts ih => simp [routeMsgs, ih]

theorem sendAll_spec (env : Env α) (msgs : List (MCPMessage α))
    (st : LangGraphCoordinator α ε) :
    msgs.foldl (fun s m => send env s m) st =
      { st with msg_queue := st.msg_queue ++ msgs.map (normalize env.now) } := by
  induction msgs generalizing st with
  | nil => simp
  | cons m ms ih =>
    rw [List.foldl_cons, ih]
    simp [send, List.append_assoc]

theorem normalize_create (now fresh : String) (role name : String) (content : α)
    (cid : Option String) (now' : String) :
    normalize now' (create_mcp_message role name content cid now fresh) =
      create_mcp_message role name content cid now fresh := rfl

/-- `_dispatch` characterized: it always appends exactly the dispatched
message to the log, extends the queue by `produced`, advances the uuid
counter by `uuidsUsed`, and leaves the registry and edges unchanged. -/
theorem dispatch_spec (env : Env α) (st : LangGraphCoordinator α ε) (cnt : Nat)
    (msg : MCPMessage α) :
    dispatch env st cnt msg =
      ({ st with consumers_log := st.consumers_log ++ [msg]
               , msg_queue := st.msg_queue ++ produced env st.nodes st.edges cnt msg },
       cnt + uuidsUsed st.nodes st.edges msg) := by
  unfold dispatch produced uuidsUsed
  cases hname : msg.name with
  | none => simp
  | some tn =>
    cases hfn : st.nodes tn with
    | none => simp only [hfn]; simp
    | some fn =>
      simp only [hfn]
      rw [sendAll_spec]
      cases hres : (fn msg).2 with
      | error e => simp only [hres]; simp
      | ok result =>
        simp only [hres]
        by_cases hedge : (st.edges tn).isSome && pyTruthy result
        · rw [if_pos hedge, if_pos hedge, sendAll_spec]
          simp only [Bool.and_eq_true] at hedge
          simp [routeMsgs_length, List.append_assoc, hedge]
        · rw [if_neg hedge, if_neg hedge, if_neg hedge, Nat.add_zero]

theorem run_once_empty (env : Env α) (fuel cnt : Nat)
    (st : LangGraphCoordinator α ε) (h : st.msg_queue = []) :
    run_once env fuel st cnt = some (st, cnt) := by
  cases fuel <;> (unfold run_once; rw [h])

theorem run_once_cons (env : Env α) (fuel cnt : Nat)
    (st : LangGraphCoordinator α ε) (m : MCPMessage α) (rest : List (MCPMessage α))
    (h : st.msg_queue = m :: rest) :
    run_once env (fuel + 1) st cnt =
      run_once env fuel (dispatch env { st with msg_queue := rest } cnt m).1
        (dispatch env { st with msg_queue := rest } cnt m).2 := by
  conv_lhs => unfold run_once
  rw [h]

/-- Whenever `run_once` returns (the Python `while` loop exits), the queue
is empty and the conversation log has been extended by the initial queue
contents, in order, followed by the transitively-produced envelopes. -/
theorem run_once_drains (env : Env α) :
    ∀ (fuel : Nat) (st : LangGraphCoordinator α ε) (cnt : Nat)
      (st' : LangGraphCoordinator α ε) (cnt' : Nat),
      run_once env fuel st cnt = some (st', cnt') →
      st'.msg_queue = [] ∧
        ∃ extra, st'.consumers_log = st.consumers_log ++ st.msg_queue ++ extra := by
  intro fuel
  induction fuel with
  | zero =>
    intro st cnt st' cnt' h
    cases hq : st.msg_queue with
    | nil =>
      rw [run_once_empty env 0 cnt st hq] at h
      cases h
      exact ⟨hq, [], by simp [hq]⟩
    | cons m rest =>
      unfold run_once at h
      rw [hq] at h
      cases h
  | succ fuel ih =>
    intro st cnt st' cnt' h
    cases hq : st.msg_queue with
    | nil =>
      rw [run_once_empty env (fuel + 1) cnt st hq] at h
      cases h
      exact ⟨hq, [], by simp [hq]⟩
    | cons m rest =>
      rw [run_once_cons env fuel cnt st m rest hq, dispatch_spec] at h
      dsimp only at h
      obtain ⟨hq', extra, hlog⟩ := ih _ _ _ _ h
      refine ⟨hq', produced env st.nodes st.edges cnt m ++ extra, ?_⟩
      dsimp only at hlog
      rw [hlog]
      simp [List.append_assoc]

/-- Whenever `run_once` returns and no dispatch can ever enqueue the
envelope `E` (its node side effects and edge routing never synthesize
`E`), the number of occurrences of `E` in the conversation log grows by
exactly the number of occurrences of `E` in the initial queue: each
queued envelope is dispatched, and logged, exactly once. -/
theorem run_once_count [DecidableEq α] (env : Env α) (E : MCPMessage α) :
    ∀ (fuel : Nat) (st : LangGraphCoordinator α ε) (cnt : Nat)
      (st' : LangGraphCoordinator α ε) (cnt' : Nat),
      run_once env fuel st cnt = some (st', cnt') →
      (∀ c m, E ∉ produced env st.nodes st.edges c m) →
      st'.consumers_log.count E =
        st.consumers_log.count E + st.msg_queue.count E := by
  intro fuel
  induction fuel with
  | zero =>
    intro st cnt st' cnt' h hno
    cases hq : st.msg_queue with
    | nil =>
      rw [run_once_empty env 0 cnt st hq] at h
      cases h
      simp [hq]
    | cons m rest =>
      unfold run_once at h
      rw [hq] at h
      cases h
  | succ fuel ih =>
    intro st cnt st' cnt' h hno
    cases hq : st.msg_queue with
    | nil =>
      rw [run_once_empty env (fuel + 1) cnt st hq] at h
      cases h
      simp [hq]
    | cons m rest =>
      rw [run_once_cons env fuel cnt st m rest hq, dispatch_spec] at h
      dsimp only at h
      have hres := ih _ _ _ _ h (by simpa using hno)
      dsimp only at hres
      have hzero : (produced env st.nodes st.edges cnt m).count E = 0 :=
        List.count_eq_zero.mpr (hno cnt m)
      rw [hres]
      simp [List.count_append, List.count_cons, hzero]
      omega

end LangGraphCoordinator

/-! ## `utils/resilience.py` -/

/-- `RetryStrategy` enum. -/
inductive RetryStrategy where
  | exponential_backoff
  | linear_backoff
  | fixed_delay
  deriving DecidableEq

/-- `_calculate_delay(strategy, attempt, base_delay, max_delay, jitter)`:
pick the strategy delay, cap it at `max_delay`, then (when `jitter` is
set) multiply by `0.5 + random.random() * 0.5`; the `random.random()`
draw, a value in `[0, 1)`, is the explicit argument `rand`. -/
def calculate_delay (strategy : RetryStrategy) (attempt : Nat)
    (base_delay max_delay : ℚ) (jitter : Bool) (rand : ℚ) : ℚ :=
  let delay : ℚ :=
    match strategy with
    | .fixed_delay => base_delay
    | .linear_backoff => base_delay * (attempt + 1)
    | .exponential_backoff => base_delay * 2 ^ attempt
  let delay := min delay max_delay
  if jitter then delay * (1/2 + rand * (1/2)) else delay

/-- Configuration of `retry_with_backoff`: `max_attempts`, the overall
`timeout` (`None` when absent), and the membership test of the
`exceptions` tuple of recoverable failure kinds. -/
structure RetryConfig (ε : Type) where
  max_attempts : Nat
  timeout : Option ℚ
  recoverable : ε → Bool

/-- The check `if timeout and (time.time() - start_time) > timeout:` —
`timeout` is falsy when `None` or `0`, and the comparison is strict. -/
def timeoutExceeded (timeout : Option ℚ) (elapsed : ℚ) : Bool :=
  match timeout with
  | none => false
  | some T => if T = 0 then false else decide (T < elapsed)

/-- Observable outcome of the retry wrapper.  `attemptsMade` counts how
many times the wrapped operation was actually invoked.  `raised none`
models `raise last_exception` when no attempt ever ran. -/
inductive RetryResult (ε ρ : Type) where
  | ok (r : ρ) (attemptsMade : Nat)
  | timedOut (attemptsMade : Nat)
  | raised (e : Option ε) (attemptsMade : Nat)
  deriving DecidableEq

/-- The `for attempt in range(max_attempts)` loop of `retry_with_backoff`:
at each attempt, first the overall timeout is checked (raising
`TimeoutError` before invoking the operation again), then the operation
runs (`f attempt` is its outcome, `elapsed attempt` the wall-clock time
already spent at the top of that iteration); a failure kind in the
`exceptions` tuple is retried unless this was the last attempt (then the
loop breaks and the last failure is re-raised), any other failure is
re-raised immediately. -/
def retryLoop (cfg : RetryConfig ε) (f : Nat → Except ε ρ) (elapsed : Nat → ℚ) :
    Nat → Option ε → RetryResult ε ρ
  | attempt, last =>
    if h : attempt < cfg.max_attempts then
      if timeoutExceeded cfg.timeout (elapsed attempt) then .timedOut attempt
      else
        match f attempt with
        | .ok r => .ok r (attempt + 1)
        | .error e =>
          if cfg.recoverable e then
            if attempt = cfg.max_attempts - 1 then .raised (some e) (attempt + 1)
            else retryLoop cfg f elapsed (attempt + 1) (some e)
          else .raised (some e) (attempt + 1)
    else .raised last attempt
  termination_by attempt _ => cfg.max_attempts - attempt

/-- `retry_with_backoff(...)` applied to an operation: run the attempt
loop from attempt `0` with `last_exception = None`. -/
def retry_with_backoff (cfg : RetryConfig ε) (f : Nat → Except ε ρ)
    (elapsed : Nat → ℚ) : RetryResult ε ρ :=
  retryLoop cfg f elapsed 0 none

/-- `CircuitBreakerState` enum. -/
inductive CircuitBreakerState where
  | closed
  | open_
  | half_open
  deriving DecidableEq

/-- `CircuitBreaker.__init__`: configuration (`failure_threshold`,
`recovery_timeout`, the `expected_exception` membership test) and mutable
state (`failure_count`, `last_failure_time`, `state`). -/
structure CircuitBreaker (ε : Type) where
  failure_threshold : Nat
  recovery_timeout : ℚ
  expected_exception : ε → Bool
  failure_count : Nat
  last_failure_time : Option ℚ
  state : CircuitBreakerState

/-- Distinct results of a breaker-guarded call: the wrapped operation's
value, the distinct `CircuitBreakerOpenError` rejection, or the
operation's own exception propagating. -/
inductive CBResult (ε ρ : Type) where
  | ok (r : ρ)
  | breakerOpen
  | raised (e : ε)
  deriving DecidableEq

/-- One `CircuitBreaker._call`: its result, the breaker state afterwards,
and whether the wrapped operation was actually invoked. -/
structure CBCall (ε ρ : Type) where
  result : CBResult ε ρ
  breaker : CircuitBreaker ε
  invoked : Bool

namespace CircuitBreaker

/-- `_should_attempt_reset`: `self.last_failure_time and
time.time() - self.last_failure_time >= self.recovery_timeout` —
a `last_failure_time` of `None` (or the falsy `0.0`) means no reset. -/
def should_attempt_reset (cb : CircuitBreaker ε) (now : ℚ) : Bool :=
  match cb.last_failure_time with
  | none => false
  | some t => if t = 0 then false else decide (cb.recovery_timeout ≤ now - t)

/-- `_on_success`: leave `half_open` for `closed`, reset the counter. -/
def on_success (cb : CircuitBreaker ε) : CircuitBreaker ε :=
  let cb := if cb.state = .half_open then { cb with state := .closed } else cb
  { cb with failure_count := 0 }

/-- `_on_failure`: increment the counter, record the failure time, and
transition to `open` once the counter reaches the threshold. -/
def on_failure (cb : CircuitBreaker ε) (now : ℚ) : CircuitBreaker ε :=
  let cb := { cb with failure_count := cb.failure_count + 1
                    , last_failure_time := some now }
  if cb.failure_threshold ≤ cb.failure_count then { cb with state := .open_ }
  else cb

/-- The `try/except` around `func(*args, **kwargs)` in `_call`: an
expected exception triggers `_on_failure` and re-raises; a success
triggers `_on_success`; any other exception propagates with the breaker
unchanged. -/
def runOp (cb : CircuitBreaker ε) (now : ℚ) (op : Except ε ρ) : CBCall ε ρ :=
  match op with
  | .ok r => ⟨.ok r, cb.on_success, true⟩
  | .error e =>
    if cb.expected_exception e then ⟨.raised e, cb.on_failure now, true⟩
    else ⟨.raised e, cb, true⟩

/-- `CircuitBreaker._call`: while `open`, either pass into `half_open`
(when the recovery timeout has elapsed) or reject with the distinct
breaker-open failure without invoking the operation; otherwise invoke
the operation under the `try/except`. -/
def call (cb : CircuitBreaker ε) (now : ℚ) (op : Except ε ρ) : CBCall ε ρ :=
  if cb.state = .open_ then
    if cb.should_attempt_reset now then
      runOp { cb with state := .half_open } now op
    else ⟨.breakerOpen, cb, false⟩
  else runOp cb now op

/-- The reachability invariant of the breaker: whenever it is `open`, at
least `failure_threshold` failures have been counted. -/
def Inv (cb : CircuitBreaker ε) : Prop :=
  cb.state = .open_ → cb.failure_threshold ≤ cb.failure_count

end CircuitBreaker

/-- `RateLimiter.__init__(max_tokens, refill_rate)`: the bucket starts
full; `last_refill` is the construction-time clock reading. -/
structure RateLimiter where
  max_tokens : ℚ
  refill_rate : ℚ
  tokens : ℚ
  last_refill : ℚ
  deriving DecidableEq

namespace RateLimiter

/-- The constructor: `tokens = max_tokens`, `last_refill = time.time()`. -/
def init (max_tokens refill_rate now : ℚ) : RateLimiter :=
  { max_tokens := max_tokens
    refill_rate := refill_rate
    tokens := max_tokens
    last_refill := now }

/-- `acquire(tokens)`: refill by elapsed time times the refill rate,
capped at `max_tokens`; then deduct and return `True` when enough tokens
are available, else return `False` (never blocking). -/
def acquire (rl : RateLimiter) (now : ℚ) (tokens : ℚ) : Bool × RateLimiter :=
  let time_passed := now - rl.last_refill
  let refilled := min rl.max_tokens (rl.tokens + time_passed * rl.refill_rate)
  if tokens ≤ refilled then
    (true, { rl with tokens := refilled - tokens, last_refill := now })
  else
    (false, { rl with tokens := refilled, last_refill := now })

/-- A sequence of `acquire` calls, each given as `(clock reading, tokens
requested)`, returning the list of results. -/
def acquireSeq (rl : RateLimiter) : List (ℚ × ℚ) → List Bool
  | [] => []
  | (now, n) :: rest =>
    let r := rl.acquire now n
    r.1 :: acquireSeq r.2 rest

end RateLimiter

/-! ## Claim C8 — exponential backoff delays -/

/-- Claim C8: with the exponential strategy and a non-negative
`base_delay`/`max_delay`, the pre-jitter delay is non-decreasing in the
attempt index and capped at `max_delay`, and the post-jitter delay (the
jitter draw `rand` ranging over `[0, 1)`) never exceeds `max_delay`. -/
theorem exponential_delay_monotone_and_capped (n : Nat) (base maxD rand : ℚ)
    (hbase : 0 ≤ base) (hmaxD : 0 ≤ maxD) (hr0 : 0 ≤ rand) (hr1 : rand < 1) :
    calculate_delay .exponential_backoff n base maxD false rand ≤
        calculate_delay .exponential_backoff (n + 1) base maxD false rand
    ∧ calculate_delay .exponential_backoff n base maxD false rand ≤ maxD
    ∧ calculate_delay .exponential_backoff n base maxD true rand ≤ maxD := by
  unfold calculate_delay
  simp only [Bool.false_eq_true, if_false, if_true]
  refine ⟨?_, ?_, ?_⟩
  · refine min_le_min ?_ le_rfl
    have h2 : (2 : ℚ) ^ n ≤ 2 ^ (n + 1) := by
      apply pow_le_pow_right (by norm_num)
      omega
    nlinarith
  · exact min_le_right _ _
  · have hd0 : 0 ≤ min (base * 2 ^ n) maxD := le_min (by positivity) hmaxD
    have hj : 1/2 + rand * (1/2) ≤ 1 := by nlinarith
    calc min (base * 2 ^ n) maxD * (1/2 + rand * (1/2))
        ≤ min (base * 2 ^ n) maxD * 1 := mul_le_mul_of_nonneg_left hj hd0
      _ = min (base * 2 ^ n) maxD := mul_one _
      _ ≤ maxD := min_le_right _ _

/-- Witness for claim C8 at `n = 2`, `base = 1`, `maxD = 60`,
`rand = 1/4`. -/
theorem exponential_delay_monotone_and_capped_witness :
    ((0 : ℚ) ≤ 1 ∧ (0 : ℚ) ≤ 60 ∧ (0 : ℚ) ≤ 1/4 ∧ (1/4 : ℚ) < 1)
    ∧ (calculate_delay .exponential_backoff 2 1 60 false (1/4) ≤
          calculate_delay .exponential_backoff 3 1 60 false (1/4)
        ∧ calculate_delay .exponential_backoff 2 1 60 false (1/4) ≤ 60
        ∧ calculate_delay .exponential_backoff 2 1 60 true (1/4) ≤ 60) :=
  ⟨⟨by norm_num, by norm_num, by norm_num, by norm_num⟩,
   exponential_delay_monotone_and_capped 2 1 60 (1/4)
     (by norm_num) (by norm_num) (by norm_num) (by norm_num)⟩

/-! ## Claim C9 — rate limiter acquire -/

/-- Claim C9: `acquire(n)` refills the bucket by elapsed time times the
refill rate capped at the capacity, returns `True` and deducts `n`
exactly when at least `n` tokens are available after the refill, and
returns `False` without deduction otherwise (never blocking — it is a
total function).  Concretely, a bucket of capacity 5 refilling at 1
token/second serves five immediate `acquire(1)` calls, rejects a sixth
immediate call, and after one simulated second serves exactly one more. -/
theorem rate_limiter_acquire_spec :
    (∀ (rl : RateLimiter) (now n : ℚ),
      (rl.acquire now n).1 =
          decide (n ≤ min rl.max_tokens
            (rl.tokens + (now - rl.last_refill) * rl.refill_rate))
      ∧ (rl.acquire now n).2.tokens =
          (if n ≤ min rl.max_tokens
              (rl.tokens + (now - rl.last_refill) * rl.refill_rate)
           then min rl.max_tokens
              (rl.tokens + (now - rl.last_refill) * rl.refill_rate) - n
           else min rl.max_tokens
              (rl.tokens + (now - rl.last_refill) * rl.refill_rate))
      ∧ (rl.acquire now n).2.last_refill = now
      ∧ (rl.acquire now n).2.max_tokens = rl.max_tokens)
    ∧ RateLimiter.acquireSeq (RateLimiter.init 5 1 0)
        [(0, 1), (0, 1), (0, 1), (0, 1), (0, 1), (0, 1), (1, 1), (1, 1)] =
        [true, true, true, true, true, false, true, false] := by
  constructor
  · intro rl now n
    unfold RateLimiter.acquire
    by_cases h : n ≤ min rl.max_tokens
        (rl.tokens + (now - rl.last_refill) * rl.refill_rate)
    · simp [h]
    · simp [h]
  · norm_num [RateLimiter.acquireSeq, RateLimiter.acquire, RateLimiter.init, min_def]

/-! ## Claim C10 — rate limiter token bounds -/

/-- Claim C10 (implicit): under a monotone clock, non-negative refill
rate and a non-negative request, `acquire` keeps the stored token count
within `[0, max_tokens]`, and a failed `acquire` leaves the token count
equal to the refilled value (no deduction happens on failure). -/
theorem rate_limiter_tokens_invariant (rl : RateLimiter) (now n : ℚ)
    (htok0 : 0 ≤ rl.tokens) (htokC : rl.tokens ≤ rl.max_tokens)
    (hclock : rl.last_refill ≤ now) (hrate : 0 ≤ rl.refill_rate)
    (hn : 0 ≤ n) :
    (0 ≤ (rl.acquire now n).2.tokens
      ∧ (rl.acquire now n).2.tokens ≤ rl.max_tokens)
    ∧ ((rl.acquire now n).1 = false →
        (rl.acquire now n).2.tokens =
          min rl.max_tokens (rl.tokens + (now - rl.last_refill) * rl.refill_rate)) := by
  have hC : 0 ≤ rl.max_tokens := le_trans htok0 htokC
  have hfill : 0 ≤ (now - rl.last_refill) * rl.refill_rate :=
    mul_nonneg (by linarith) hrate
  have hmin1 : min rl.max_tokens (rl.tokens + (now - rl.last_refill) * rl.refill_rate)
      ≤ rl.max_tokens := min_le_left _ _
  have hmin0 : 0 ≤ min rl.max_tokens (rl.tokens + (now - rl.last_refill) * rl.refill_rate) :=
    le_min hC (by linarith)
  by_cases h : n ≤ min rl.max_tokens (rl.tokens + (now - rl.last_refill) * rl.refill_rate)
  · have hacq : rl.acquire now n =
        (true, { rl with
          tokens := min rl.max_tokens (rl.tokens + (now - rl.last_refill) * rl.refill_rate) - n
          last_refill := now }) := by
      simp only [RateLimiter.acquire]
      rw [if_pos h]
    rw [hacq]
    refine ⟨⟨?_, ?_⟩, ?_⟩
    · show 0 ≤ min rl.max_tokens (rl.tokens + (now - rl.last_refill) * rl.refill_rate) - n
      linarith
    · show min rl.max_tokens (rl.tokens + (now - rl.last_refill) * rl.refill_rate) - n
        ≤ rl.max_tokens
      linarith
    · intro hc
      exact absurd hc (by simp)
  · have hacq : rl.acquire now n =
        (false, { rl with
          tokens := min rl.max_tokens (rl.tokens + (now - rl.last_refill) * rl.refill_rate)
          last_refill := now }) := by
      simp only [RateLimiter.acquire]
      rw [if_neg h]
    rw [hacq]
    exact ⟨⟨hmin0, hmin1⟩, fun _ => rfl⟩

/-- Witness for claim C10 at a bucket `⟨5, 1, 2, 0⟩` read at time 1 with
a request of 1 token. -/
theorem rate_limiter_tokens_invariant_witness :
    ((0 : ℚ) ≤ (2 : ℚ) ∧ (2 : ℚ) ≤ (5 : ℚ) ∧ (0 : ℚ) ≤ (1 : ℚ)) ∧
    ((0 ≤ ((⟨5, 1, 2, 0⟩ : RateLimiter).acquire 1 1).2.tokens
        ∧ ((⟨5, 1, 2, 0⟩ : RateLimiter).acquire 1 1).2.tokens ≤ (5 : ℚ))
      ∧ (((⟨5, 1, 2, 0⟩ : RateLimiter).acquire 1 1).1 = false →
          ((⟨5, 1, 2, 0⟩ : RateLimiter).acquire 1 1).2.tokens =
            min (5 : ℚ) (2 + (1 - 0) * 1))) :=
  ⟨⟨by norm_num, by norm_num, by norm_num⟩,
   rate_limiter_tokens_invariant ⟨5, 1, 2, 0⟩ 1 1
     (by norm_num) (by norm_num) (by norm_num) (by norm_num) (by norm_num)⟩

/-! ## Claim C3 — circuit breaker state machine -/

theorem CircuitBreaker.Inv_on_failure (cb : CircuitBreaker ε) (now : ℚ)
    (h : CircuitBreaker.Inv cb) : CircuitBreaker.Inv (cb.on_failure now) := by
  unfold CircuitBreaker.Inv at h ⊢
  simp only [CircuitBreaker.on_failure]
  split
  · rename_i hcond
    intro _
    exact hcond
  · intro hs
    exact Nat.le_succ_of_le (h hs)

theorem CircuitBreaker.Inv_on_success (cb : CircuitBreaker ε)
    (hstate : cb.state ≠ .open_) : CircuitBreaker.Inv cb.on_success := by
  unfold CircuitBreaker.Inv CircuitBreaker.on_success
  split
  · intro hs
    cases hs
  · intro hs
    exact absurd hs hstate

theorem CircuitBreaker.Inv_runOp (cb : CircuitBreaker ε) (now : ℚ)
    (op : Except ε ρ) (hstate : cb.state ≠ .open_) (h : CircuitBreaker.Inv cb) :
    CircuitBreaker.Inv (cb.runOp now op).breaker := by
  unfold CircuitBreaker.runOp
  cases op with
  | ok r => exact CircuitBreaker.Inv_on_success cb hstate
  | error e =>
    by_cases he : cb.expected_exception e
    · simp only [he, if_true]
      exact CircuitBreaker.Inv_on_failure cb now h
    · simp only [he, Bool.false_eq_true, if_false]
      exact h

/-- Claim C3: the closed/open/half-open state machine of
`CircuitBreaker._call`.  (a) In `closed` state an expected failure is
invoked, increments the counter, stamps the failure time, and opens the
breaker exactly when the counter reaches `failure_threshold`.  (b) While
`open` and strictly within `recovery_timeout` of the recorded (non-zero)
last failure, the call is rejected with the distinct breaker-open
failure, the operation is not invoked and the breaker is unchanged.
(c) Once `recovery_timeout` has elapsed, the single trial call is
invoked; its success resets the counter and closes the breaker.  (d) The
trial call's failure re-opens the breaker (under the reachability
invariant `Inv`) and resets the recovery timer to the current time — so
the immediately following call is again within the recovery window.
(e) `Inv` is preserved by every call. -/
theorem circuit_breaker_state_machine (ε ρ : Type) (cb : CircuitBreaker ε)
    (now : ℚ) (op : Except ε ρ) :
    (∀ e, cb.state = .closed → op = .error e → cb.expected_exception e = true →
      (cb.call now op).invoked = true
      ∧ (cb.call now op).result = .raised e
      ∧ (cb.call now op).breaker.failure_count = cb.failure_count + 1
      ∧ (cb.call now op).breaker.last_failure_time = some now
      ∧ (cb.call now op).breaker.state =
          (if cb.failure_threshold ≤ cb.failure_count + 1
           then CircuitBreakerState.open_ else CircuitBreakerState.closed))
    ∧ (∀ t, cb.state = .open_ → cb.last_failure_time = some t → t ≠ 0 →
        now - t < cb.recovery_timeout →
        cb.call now op = ⟨.breakerOpen, cb, false⟩)
    ∧ (∀ t r, cb.state = .open_ → cb.last_failure_time = some t → t ≠ 0 →
        cb.recovery_timeout ≤ now - t → op = .ok r →
        (cb.call now op).invoked = true
        ∧ (cb.call now op).result = .ok r
        ∧ (cb.call now op).breaker.state = .closed
        ∧ (cb.call now op).breaker.failure_count = 0)
    ∧ (∀ t e, CircuitBreaker.Inv cb → cb.state = .open_ →
        cb.last_failure_time = some t → t ≠ 0 →
        cb.recovery_timeout ≤ now - t → op = .error e →
        cb.expected_exception e = true →
        (cb.call now op).invoked = true
        ∧ (cb.call now op).result = .raised e
        ∧ (cb.call now op).breaker.state = .open_
        ∧ (cb.call now op).breaker.last_failure_time = some now)
    ∧ (CircuitBreaker.Inv cb → CircuitBreaker.Inv (cb.call now op).breaker) := by
  refine ⟨?_, ?_, ?_, ?_, ?_⟩
  · intro e h1 h2 h3
    subst h2
    simp only [CircuitBreaker.call, h1]
    simp only [CircuitBreaker.runOp, h3, if_true, reduceCtorEq, if_false]
    simp only [CircuitBreaker.on_failure]
    refine ⟨by trivial, by trivial, ?_, ?_, ?_⟩
    · split <;> rfl
    · split <;> rfl
    · split <;> simp_all
  · intro t h1 h2 h3 h4
    have hreset : cb.should_attempt_reset now = false := by
      simp [CircuitBreaker.should_attempt_reset, h2, h3, not_le.mpr h4]
    simp [CircuitBreaker.call, h1, hreset]
  · intro t r h1 h2 h3 h4 h5
    subst h5
    have hreset : cb.should_attempt_reset now = true := by
      simp [CircuitBreaker.should_attempt_reset, h2, h3, h4]
    simp [CircuitBreaker.call, h1, hreset, CircuitBreaker.runOp,
      CircuitBreaker.on_success]
  · intro t e hInv h1 h2 h3 h4 h5 h6
    subst h5
    have hreset : cb.should_attempt_reset now = true := by
      simp [CircuitBreaker.should_attempt_reset, h2, h3, h4]
    have hth : cb.failure_threshold ≤ cb.failure_count + 1 :=
      Nat.le_succ_of_le (hInv h1)
    simp only [CircuitBreaker.call, h1, if_true, hreset]
    simp only [CircuitBreaker.runOp, h6, if_true, reduceCtorEq, if_false]
    simp only [CircuitBreaker.on_failure]
    refine ⟨by trivial, by trivial, ?_, ?_⟩
    · rw [if_pos hth]
    · rw [if_pos hth]
  · intro hInv
    unfold CircuitBreaker.call
    by_cases h1 : cb.state = CircuitBreakerState.open_
    · simp only [h1, if_true]
      by_cases h2 : cb.should_attempt_reset now
      · simp only [h2, if_true]
        refine CircuitBreaker.Inv_runOp _ now op (by simp) ?_
        intro hs
        cases hs
      · simp only [h2, Bool.false_eq_true, if_false]
        exact hInv
    · simp only [h1, if_false]
      exact CircuitBreaker.Inv_runOp cb now op h1 hInv

/-- A closed breaker: threshold 3, recovery timeout 30, no failures yet. -/
def cbClosedW : CircuitBreaker Nat :=
  { failure_threshold := 3
    recovery_timeout := 30
    expected_exception := fun _ => true
    failure_count := 0
    last_failure_time := none
    state := .closed }

/-- An open breaker: threshold 3 reached, last failure at time 10. -/
def cbOpenW : CircuitBreaker Nat :=
  { failure_threshold := 3
    recovery_timeout := 30
    expected_exception := fun _ => true
    failure_count := 3
    last_failure_time := some 10
    state := .open_ }

/-- Witness for claim C3: a closed breaker counting a failure; an open
breaker rejecting at time 20 (within the window), letting a trial
through at time 50, closing on trial success and re-opening with a
fresh timer on trial failure. -/
theorem circuit_breaker_state_machine_witness :
    ((cbClosedW.call 0 (Except.error 7 : Except Nat Nat)).invoked = true
      ∧ (cbClosedW.call 0 (Except.error 7 : Except Nat Nat)).breaker.failure_count =
          cbClosedW.failure_count + 1)
    ∧ cbOpenW.call 20 (Except.error 7 : Except Nat Nat) = ⟨.breakerOpen, cbOpenW, false⟩
    ∧ ((cbOpenW.call 50 (Except.ok 1 : Except Nat Nat)).breaker.state = .closed
      ∧ (cbOpenW.call 50 (Except.ok 1 : Except Nat Nat)).breaker.failure_count = 0)
    ∧ ((cbOpenW.call 50 (Except.error 7 : Except Nat Nat)).breaker.state = .open_
      ∧ (cbOpenW.call 50 (Except.error 7 : Except Nat Nat)).breaker.last_failure_time = some 50) := by
  have hA := (circuit_breaker_state_machine Nat Nat cbClosedW 0
    (Except.error 7)).1 7 rfl rfl rfl
  have hB := (circuit_breaker_state_machine Nat Nat cbOpenW 20
    (Except.error 7)).2.1 10 rfl rfl (by norm_num) (by norm_num [cbOpenW])
  have hC := (circuit_breaker_state_machine Nat Nat cbOpenW 50
    (Except.ok 1)).2.2.1 10 1 rfl rfl (by norm_num) (by norm_num [cbOpenW]) rfl
  have hD := (circuit_breaker_state_machine Nat Nat cbOpenW 50
    (Except.error 7)).2.2.2.1 10 7 (fun _ => Nat.le.refl) rfl rfl
    (by norm_num) (by norm_num [cbOpenW]) rfl rfl
  exact ⟨⟨hA.1, hA.2.2.1⟩, hB, ⟨hC.2.2.1, hC.2.2.2⟩, ⟨hD.2.2.1, hD.2.2.2⟩⟩

/-! ## Claim C7 — retry wrapper error paths -/

theorem retryLoop_step (cfg : RetryConfig ε) (f : Nat → Except ε ρ)
    (elapsed : Nat → ℚ) (a : Nat) (last : Option ε)
    (h : a < cfg.max_attempts) :
    retryLoop cfg f elapsed a last =
      if timeoutExceeded cfg.timeout (elapsed a) then .timedOut a
      else
        match f a with
        | .ok r => .ok r (a + 1)
        | .error e =>
          if cfg.recoverable e then
            if a = cfg.max_attempts - 1 then .raised (some e) (a + 1)
            else retryLoop cfg f elapsed (a + 1) (some e)
          else .raised (some e) (a + 1) := by
  conv_lhs => unfold retryLoop
  rw [dif_pos h]

theorem retryLoop_stop (cfg : RetryConfig ε) (f : Nat → Except ε ρ)
    (elapsed : Nat → ℚ) (a : Nat) (last : Option ε)
    (h : ¬ a < cfg.max_attempts) :
    retryLoop cfg f elapsed a last = .raised last a := by
  conv_lhs => unfold retryLoop
  rw [dif_neg h]

/-- Reaching attempt `k`: when every attempt before `k` fails with a
recoverable kind and no timeout fires, the loop arrives at attempt `k`
with some recorded last exception. -/
theorem retryLoop_reach (cfg : RetryConfig ε) (f : Nat → Except ε ρ)
    (elapsed : Nat → ℚ) (es : Nat → ε) (k : Nat) (hk : k < cfg.max_attempts) :
    ∀ a last, a ≤ k →
      (∀ j, a ≤ j → j < k →
        f j = Except.error (es j) ∧ cfg.recoverable (es j) = true ∧
        timeoutExceeded cfg.timeout (elapsed j) = false) →
      ∃ l, retryLoop cfg f elapsed a last = retryLoop cfg f elapsed k l := by
  suffices H : ∀ d a last, k - a = d → a ≤ k →
      (∀ j, a ≤ j → j < k →
        f j = Except.error (es j) ∧ cfg.recoverable (es j) = true ∧
        timeoutExceeded cfg.timeout (elapsed j) = false) →
      ∃ l, retryLoop cfg f elapsed a last = retryLoop cfg f elapsed k l by
    intro a last ha hall
    exact H (k - a) a last rfl ha hall
  intro d
  induction d with
  | zero =>
    intro a last hd ha _
    have : a = k := by omega
    subst this
    exact ⟨last, rfl⟩
  | succ d ih =>
    intro a last hd ha hall
    have hak : a < k := by omega
    obtain ⟨hf, hrec, hto⟩ := hall a le_rfl hak
    have hstep := retryLoop_step cfg f elapsed a last (by omega)
    rw [hto] at hstep
    simp only [Bool.false_eq_true, if_false] at hstep
    rw [hf] at hstep
    simp only [hrec, if_true] at hstep
    have hne : ¬ a = cfg.max_attempts - 1 := by omega
    rw [if_neg hne] at hstep
    rw [hstep]
    exact ih (a + 1) (some (es a)) (by omega) (by omega)
      (fun j hj1 hj2 => hall j (by omega) hj2)

/-- Exhaustion: when every remaining attempt fails with a recoverable
kind and no timeout fires, the loop breaks at the last attempt and
re-raises that attempt's failure. -/
theorem retryLoop_exhaust (cfg : RetryConfig ε) (f : Nat → Except ε ρ)
    (elapsed : Nat → ℚ) (es : Nat → ε) :
    ∀ a last, a < cfg.max_attempts →
      (∀ j, a ≤ j → j < cfg.max_attempts →
        f j = Except.error (es j) ∧ cfg.recoverable (es j) = true ∧
        timeoutExceeded cfg.timeout (elapsed j) = false) →
      retryLoop cfg f elapsed a last =
        .raised (some (es (cfg.max_attempts - 1))) cfg.max_attempts := by
  suffices H : ∀ d a last, cfg.max_attempts - a = d → a < cfg.max_attempts →
      (∀ j, a ≤ j → j < cfg.max_attempts →
        f j = Except.error (es j) ∧ cfg.recoverable (es j) = true ∧
        timeoutExceeded cfg.timeout (elapsed j) = false) →
      retryLoop cfg f elapsed a last =
        .raised (some (es (cfg.max_attempts - 1))) cfg.max_attempts by
    intro a last ha hall
    exact H (cfg.max_attempts - a) a last rfl ha hall
  intro d
  induction d with
  | zero =>
    intro a last hd ha _
    omega
  | succ d ih =>
    intro a last hd ha hall
    obtain ⟨hf, hrec, hto⟩ := hall a le_rfl ha
    have hstep := retryLoop_step cfg f elapsed a last ha
    rw [hto] at hstep
    simp only [Bool.false_eq_true, if_false] at hstep
    rw [hf] at hstep
    simp only [hrec, if_true] at hstep
    by_cases hlast : a = cfg.max_attempts - 1
    · rw [if_pos hlast] at hstep
      rw [hstep, hlast]
      congr 1
      omega
    · rw [if_neg hlast] at hstep
      rw [hstep]
      exact ih (a + 1) (some (es a)) (by omega) (by omega)
        (fun j hj1 hj2 => hall j (by omega) hj2)

/-- Claim C7: the retry wrapper (1) propagates a failure whose kind is
not in the recoverable set immediately — the run ends at that attempt
with the same failure and no further invocation; (2) after all
`max_attempts` attempts fail recoverably it re-raises the last observed
failure unchanged in kind; (3) once the overall timeout is exceeded it
raises the distinct timeout failure before invoking the operation again,
even though attempts remain. -/
theorem retry_wrapper_error_paths (ε ρ : Type) (cfg : RetryConfig ε)
    (f : Nat → Except ε ρ) (elapsed : Nat → ℚ) (es : Nat → ε) :
    (∀ k e, k < cfg.max_attempts →
      (∀ j, j < k → f j = Except.error (es j) ∧ cfg.recoverable (es j) = true ∧
        timeoutExceeded cfg.timeout (elapsed j) = false) →
      timeoutExceeded cfg.timeout (elapsed k) = false →
      f k = Except.error e → cfg.recoverable e = false →
      retry_with_backoff cfg f elapsed = RetryResult.raised (some e) (k + 1))
    ∧ (0 < cfg.max_attempts →
      (∀ j, j < cfg.max_attempts → f j = Except.error (es j) ∧
        cfg.recoverable (es j) = true ∧
        timeoutExceeded cfg.timeout (elapsed j) = false) →
      retry_with_backoff cfg f elapsed =
        RetryResult.raised (some (es (cfg.max_attempts - 1))) cfg.max_attempts)
    ∧ (∀ k, k < cfg.max_attempts →
      (∀ j, j < k → f j = Except.error (es j) ∧ cfg.recoverable (es j) = true ∧
        timeoutExceeded cfg.timeout (elapsed j) = false) →
      timeoutExceeded cfg.timeout (elapsed k) = true →
      retry_with_backoff cfg f elapsed = RetryResult.timedOut k) := by
  refine ⟨?_, ?_, ?_⟩
  · intro k e hk hall hto hf hrec
    obtain ⟨l, hl⟩ := retryLoop_reach cfg f elapsed es k hk 0 none
      (Nat.zero_le k) (fun j _ hj2 => hall j hj2)
    unfold retry_with_backoff
    rw [hl, retryLoop_step cfg f elapsed k l hk, hto]
    simp only [Bool.false_eq_true, if_false]
    rw [hf]
    simp only [hrec, Bool.false_eq_true, if_false]
  · intro hpos hall
    unfold retry_with_backoff
    exact retryLoop_exhaust cfg f elapsed es 0 none hpos
      (fun j _ hj2 => hall j hj2)
  · intro k hk hall hto
    obtain ⟨l, hl⟩ := retryLoop_reach cfg f elapsed es k hk 0 none
      (Nat.zero_le k) (fun j _ hj2 => hall j hj2)
    unfold retry_with_backoff
    rw [hl, retryLoop_step cfg f elapsed k l hk, hto]
    simp only [if_true]

/-- Retry configuration for the witness: 3 attempts, overall timeout 10,
failure kind `0` recoverable, everything else not. -/
def cfgW : RetryConfig Nat :=
  { max_attempts := 3, timeout := some 10, recoverable := fun e => e == 0 }

/-- Fails recoverably at attempt 0 and non-recoverably afterwards. -/
def fNonRecW : Nat → Except Nat Nat :=
  fun j => Except.error (if j = 0 then 0 else 5)

/-- Always fails recoverably. -/
def fAllRecW : Nat → Except Nat Nat := fun _ => Except.error 0

/-- No wall time elapses. -/
def elapsed0W : Nat → ℚ := fun _ => 0

/-- The clock jumps past the overall timeout before attempt 2. -/
def elapsedTmoW : Nat → ℚ := fun j => if j = 2 then 20 else 0

/-- Witness for claim C7: the non-recoverable kind `5` propagates at
attempt 2 of 3; three recoverable failures re-raise the kind `0`; a
clock jump to 20 times the run out before attempt 2 is invoked. -/
theorem retry_wrapper_error_paths_witness :
    retry_with_backoff cfgW fNonRecW elapsed0W = RetryResult.raised (some 5) 2
    ∧ retry_with_backoff cfgW fAllRecW elapsed0W = RetryResult.raised (some 0) 3
    ∧ retry_with_backoff cfgW fAllRecW elapsedTmoW = RetryResult.timedOut 2 := by
  refine ⟨?_, ?_, ?_⟩
  · refine (retry_wrapper_error_paths Nat Nat cfgW fNonRecW elapsed0W
      (fun _ => 0)).1 1 5 (by norm_num [cfgW]) ?_
      (by norm_num [timeoutExceeded, cfgW, elapsed0W]) rfl rfl
    intro j hj
    exact ⟨by simp [fNonRecW]; omega, rfl,
      by norm_num [timeoutExceeded, cfgW, elapsed0W]⟩
  · refine (retry_wrapper_error_paths Nat Nat cfgW fAllRecW elapsed0W
      (fun _ => 0)).2.1 (by norm_num [cfgW]) ?_
    intro j hj
    exact ⟨rfl, rfl, by norm_num [timeoutExceeded, cfgW, elapsed0W]⟩
  · refine (retry_wrapper_error_paths Nat Nat cfgW fAllRecW elapsedTmoW
      (fun _ => 0)).2.2 2 (by norm_num [cfgW]) ?_
      (by norm_num [timeoutExceeded, cfgW, elapsedTmoW])
    intro j hj
    have hne : j ≠ 2 := by omega
    exact ⟨rfl, rfl, by norm_num [timeoutExceeded, cfgW, elapsedTmoW, hne]⟩

/-! ## Coordinator claims — shared concrete instances -/

/-- Concrete effect environment: clock string `"t0"`, uuid supply
`uuid-0, uuid-1, …`, empty payload `""`. -/
def envW : Env String :=
  { now := "t0", uuid := fun n => "uuid-" ++ toString n, emptyContent := "" }

/-- A node that succeeds with a non-empty dict result carrying the
payload `"payload"` and performs no sends of its own. -/
def nodeAW : NodeFn String Unit :=
  fun _ => ([], Except.ok (PyResult.dict (some "payload")))

/-- Coordinator with node `A` registered and edges `A → B`, `A → C`. -/
def stW : LangGraphCoordinator String Unit :=
  (((LangGraphCoordinator.init :
      LangGraphCoordinator String Unit).register_node "A" nodeAW).add_edge
    "A" "B").add_edge "A" "C"

/-- An `A`-addressed envelope with correlation id `"conv-1"`. -/
def triggerW : MCPMessage String :=
  { role := some "agent"
    name := some "A"
    content := "go"
    metadata := some { timestamp := some "t0", conversation_id := some "conv-1" } }

/-! ## Claim C1 — routing fan-out and correlation ids -/

/-- Claim C1, counterexample: dispatching the successful `A`-addressed
envelope `triggerW` (correlation id `"conv-1"`) over edges `A → B`,
`A → C` enqueues two follow-up envelopes whose correlation ids are the
freshly drawn uuids `"uuid-0"` and `"uuid-1"`, not the triggering
envelope's `"conv-1"`: `_dispatch` calls `create_mcp_message` without a
`conversation_id` argument, so the claim's "correlation id copied
unchanged" is false on the code. -/
theorem fanout_correlation_copied_cex :
    (LangGraphCoordinator.dispatch envW stW 0 triggerW).1.msg_queue.map
        get_conversation_id = [some "uuid-0", some "uuid-1"]
    ∧ get_conversation_id triggerW = some "conv-1"
    ∧ (some "uuid-0" : Option String) ≠ some "conv-1"
    ∧ (some "uuid-1" : Option String) ≠ some "conv-1" :=
  ⟨rfl, rfl, by decide, by decide⟩

/-- Claim C1 as amended: with `addEdge(A,B)` and `addEdge(A,C)` in
place, dispatching an `A`-addressed envelope whose node succeeds with a
non-empty result carrying payload `p` enqueues exactly one `B`-addressed
and one `C`-addressed follow-up envelope, each with role `"node"`,
payload `p`, and a freshly generated correlation id (one new uuid per
follow-up) — the correlation id is not copied from the triggering
envelope. -/
theorem dispatch_fanout_fresh_correlation (α ε : Type) (env : Env α)
    (st : LangGraphCoordinator α ε) (cnt : Nat) (msg : MCPMessage α)
    (tn b c : String) (fn : NodeFn α ε) (p : α)
    (hname : msg.name = some tn) (hfn : st.nodes tn = some fn)
    (hrun : fn msg = ([], Except.ok (PyResult.dict (some p))))
    (hedges : st.edges tn = some [b, c]) :
    LangGraphCoordinator.dispatch env st cnt msg =
      ({ st with
          consumers_log := st.consumers_log ++ [msg]
          msg_queue := st.msg_queue ++
            [create_mcp_message "node" b p none env.now (env.uuid cnt),
             create_mcp_message "node" c p none env.now (env.uuid (cnt + 1))] },
        cnt + 2)
    ∧ get_conversation_id
        (create_mcp_message "node" b p none env.now (env.uuid cnt)) =
        some (env.uuid cnt)
    ∧ get_conversation_id
        (create_mcp_message "node" c p none env.now (env.uuid (cnt + 1))) =
        some (env.uuid (cnt + 1))
    ∧ (create_mcp_message "node" b p none env.now (env.uuid cnt)).name = some b
    ∧ (create_mcp_message "node" c p none env.now (env.uuid (cnt + 1))).name = some c
    ∧ (create_mcp_message "node" b p none env.now (env.uuid cnt)).content = p
    ∧ (create_mcp_message "node" c p none env.now (env.uuid (cnt + 1))).content = p := by
  refine ⟨?_, rfl, rfl, rfl, rfl, rfl, rfl⟩
  rw [LangGraphCoordinator.dispatch_spec]
  simp [LangGraphCoordinator.produced, LangGraphCoordinator.uuidsUsed,
    hname, hfn, hrun, hedges, LangGraphCoordinator.routeMsgs, pyTruthy,
    LangGraphCoordinator.resultContent, LangGraphCoordinator.normalize_create]

/-- Witness for the amended claim C1 at the concrete coordinator `stW`
and envelope `triggerW`. -/
theorem dispatch_fanout_fresh_correlation_witness :
    (triggerW.name = some "A" ∧ stW.nodes "A" = some nodeAW ∧
      nodeAW triggerW = ([], Except.ok (PyResult.dict (some "payload"))) ∧
      stW.edges "A" = some ["B", "C"]) ∧
    (LangGraphCoordinator.dispatch envW stW 0 triggerW =
        ({ stW with
            consumers_log := stW.consumers_log ++ [triggerW]
            msg_queue := stW.msg_queue ++
              [create_mcp_message "node" "B" "payload" none envW.now (envW.uuid 0),
               create_mcp_message "node" "C" "payload" none envW.now (envW.uuid 1)] },
          2)
      ∧ get_conversation_id
          (create_mcp_message "node" "B" "payload" none envW.now (envW.uuid 0)) =
          some (envW.uuid 0)
      ∧ get_conversation_id
          (create_mcp_message "node" "C" "payload" none envW.now (envW.uuid 1)) =
          some (envW.uuid 1)
      ∧ (create_mcp_message "node" "B" "payload" none envW.now (envW.uuid 0)).name
          = some "B"
      ∧ (create_mcp_message "node" "C" "payload" none envW.now (envW.uuid 1)).name
          = some "C"
      ∧ (create_mcp_message "node" "B" "payload" none envW.now (envW.uuid 0)).content
          = "payload"
      ∧ (create_mcp_message "node" "C" "payload" none envW.now (envW.uuid 1)).content
          = "payload") :=
  ⟨⟨rfl, rfl, rfl, rfl⟩,
   dispatch_fanout_fresh_correlation String Unit envW stW 0 triggerW
     "A" "B" "C" nodeAW "payload" rfl rfl rfl rfl⟩

/-! ## Claim C2 — metadata normalization on submit -/

/-- An envelope submitted without any metadata. -/
def msgNoMetaW : MCPMessage String :=
  { role := some "agent", name := some "A", content := "x", metadata := none }

/-- Claim C2, counterexample: submitting an envelope with no metadata
enqueues it with metadata whose `timestamp` is filled but whose
`conversation_id` is `None` — `send` writes the literal
`{"timestamp": …, "conversation_id": None}` — so the claimed invariant
"correlation_id non-null on every queued envelope" is false on the code. -/
theorem submit_nonnull_correlation_cex :
    (LangGraphCoordinator.send envW
        (LangGraphCoordinator.init : LangGraphCoordinator String Unit)
        msgNoMetaW).msg_queue.map get_conversation_id = [none]
    ∧ (LangGraphCoordinator.send envW
        (LangGraphCoordinator.init : LangGraphCoordinator String Unit)
        msgNoMetaW).msg_queue.map (fun m => m.metadata.bind Metadata.timestamp) =
        [some "t0"] :=
  ⟨rfl, rfl⟩

/-- Claim C2 as amended: `send` never blocks and never fails (it is a
total function appending exactly one envelope to the FIFO queue); when
the `metadata` key is absent it fills it with a non-null timestamp but a
NULL `conversation_id`; an envelope that already has metadata is
enqueued unchanged.  The log and registry are untouched. -/
theorem send_fills_metadata_null_correlation (α ε : Type) (env : Env α)
    (st : LangGraphCoordinator α ε) (msg : MCPMessage α) :
    (LangGraphCoordinator.send env st msg).msg_queue =
        st.msg_queue ++ [LangGraphCoordinator.normalize env.now msg]
    ∧ (msg.metadata = none →
        LangGraphCoordinator.normalize env.now msg =
          { msg with metadata := some (Metadata.mk (some env.now) none) })
    ∧ (msg.metadata ≠ none → LangGraphCoordinator.normalize env.now msg = msg)
    ∧ (LangGraphCoordinator.send env st msg).consumers_log = st.consumers_log
    ∧ (LangGraphCoordinator.send env st msg).nodes = st.nodes := by
  refine ⟨rfl, ?_, ?_, rfl, rfl⟩
  · intro h
    unfold LangGraphCoordinator.normalize
    rw [h]
  · intro h
    unfold LangGraphCoordinator.normalize
    cases hm : msg.metadata with
    | none => exact absurd hm h
    | some md => rfl

/-- Witness for the amended claim C2 at the metadata-less envelope
`msgNoMetaW` and at the fully-populated envelope `triggerW`. -/
theorem send_fills_metadata_null_correlation_witness :
    (msgNoMetaW.metadata = none ∧
      LangGraphCoordinator.normalize envW.now msgNoMetaW =
        { msgNoMetaW with metadata := some (Metadata.mk (some envW.now) none) })
    ∧ (triggerW.metadata ≠ none ∧
      LangGraphCoordinator.normalize envW.now triggerW = triggerW) :=
  ⟨⟨rfl,
    (send_fills_metadata_null_correlation String Unit envW
      (LangGraphCoordinator.init : LangGraphCoordinator String Unit)
      msgNoMetaW).2.1 rfl⟩,
   ⟨by simp [triggerW],
    (send_fills_metadata_null_correlation String Unit envW
      (LangGraphCoordinator.init : LangGraphCoordinator String Unit)
      triggerW).2.2.1 (by simp [triggerW])⟩⟩

/-! ## Claim C4 — node failure isolation -/

/-- Claim C4: when the addressed node raises, `_dispatch` returns
normally (no re-raise): it logs the envelope, enqueues only the sends
the node made before raising, performs no edge-based routing (and draws
no uuids), and a subsequent `run_once` that returns processes every
remaining queued envelope — the failing head envelope and all envelopes
queued after it appear in the final log, with the queue drained. -/
theorem node_failure_isolated (α ε : Type) (env : Env α)
    (st : LangGraphCoordinator α ε) (cnt : Nat) (msg : MCPMessage α)
    (tn : String) (fn : NodeFn α ε) (sent : List (MCPMessage α)) (e : ε)
    (hname : msg.name = some tn) (hfn : st.nodes tn = some fn)
    (hrun : fn msg = (sent, Except.error e)) :
    LangGraphCoordinator.dispatch env st cnt msg =
      ({ st with
          consumers_log := st.consumers_log ++ [msg]
          msg_queue := st.msg_queue ++
            sent.map (LangGraphCoordinator.normalize env.now) }, cnt)
    ∧ (∀ fuel rest st' cnt', st.msg_queue = msg :: rest →
        LangGraphCoordinator.run_once env fuel st cnt = some (st', cnt') →
        st'.msg_queue = [] ∧
          ∃ extra, st'.consumers_log = st.consumers_log ++ [msg] ++ rest ++ extra) := by
  constructor
  · rw [LangGraphCoordinator.dispatch_spec]
    simp [LangGraphCoordinator.produced, LangGraphCoordinator.uuidsUsed,
      hname, hfn, hrun]
  · intro fuel rest st' cnt' hq h
    obtain ⟨hq', extra, hlog⟩ :=
      LangGraphCoordinator.run_once_drains env fuel st cnt st' cnt' h
    refine ⟨hq', extra, ?_⟩
    rw [hlog, hq]
    simp [List.append_assoc]

/-- A node that always raises (and performs no sends). -/
def nodeFailW : NodeFn String Unit := fun _ => ([], Except.error ())

/-- An envelope addressed to the always-raising node `F`. -/
def failMsgW : MCPMessage String :=
  { role := some "agent"
    name := some "F"
    content := "boom"
    metadata := some ⟨some "t0", some "conv-2"⟩ }

/-- An unrelated envelope queued behind the failing one (its target `X`
is unregistered, so it is logged and dropped). -/
def nextMsgW : MCPMessage String :=
  { role := some "user"
    name := some "X"
    content := "later"
    metadata := some ⟨some "t0", some "conv-3"⟩ }

/-- Coordinator with the raising node `F` (and an edge `F → B` that must
not fire), and the two envelopes queued. -/
def stFailW : LangGraphCoordinator String Unit :=
  { (((LangGraphCoordinator.init :
        LangGraphCoordinator String Unit).register_node "F" nodeFailW).add_edge
      "F" "B") with
    msg_queue := [failMsgW, nextMsgW] }

/-- The state after draining `stFailW`: queue empty, both envelopes
logged, nothing routed. -/
def stFailFinalW : LangGraphCoordinator String Unit :=
  { stFailW with
    msg_queue := []
    consumers_log := [failMsgW, nextMsgW] }

/-- Witness for claim C4: the always-raising node `F` does not prevent
the envelope queued behind it from being dispatched in the same
`run_once`, and its dispatch enqueues nothing. -/
theorem node_failure_isolated_witness :
    (failMsgW.name = some "F" ∧ stFailW.nodes "F" = some nodeFailW ∧
      nodeFailW failMsgW = ([], Except.error ()) ∧
      stFailW.msg_queue = failMsgW :: [nextMsgW] ∧
      LangGraphCoordinator.run_once envW 2 stFailW 0 = some (stFailFinalW, 0))
    ∧ (LangGraphCoordinator.dispatch envW stFailW 0 failMsgW =
        ({ stFailW with
            consumers_log := stFailW.consumers_log ++ [failMsgW]
            msg_queue := stFailW.msg_queue ++
              List.map (LangGraphCoordinator.normalize envW.now) [] }, 0)
      ∧ (stFailFinalW.msg_queue = [] ∧
          ∃ extra, stFailFinalW.consumers_log =
            stFailW.consumers_log ++ [failMsgW] ++ [nextMsgW] ++ extra)) := by
  have h := node_failure_isolated String Unit envW stFailW 0 failMsgW "F"
    nodeFailW [] () rfl rfl rfl
  exact ⟨⟨rfl, rfl, rfl, rfl, rfl⟩,
    ⟨h.1, h.2 2 [nextMsgW] stFailFinalW 0 rfl rfl⟩⟩

/-! ## Claim C5 — every submitted envelope is logged exactly once -/

/-- Claim C5: (1) when `run_once` returns and no dispatch can synthesize
the envelope `E` anew, `E` occurs in the final conversation log exactly
as often as it occurred in the log plus the queue before the drain —
each queued envelope is dispatched, and logged, exactly once; (2) an
envelope whose target is not registered is logged and dropped: the
dispatch appends it to the log and leaves the queue and the uuid counter
untouched (no follow-up and no error envelope); (3) querying by
correlation id returns exactly the logged envelopes carrying that id, in
log insertion order (a sublist of the log), and querying without an id
returns the whole log. -/
theorem submitted_envelopes_logged_once (α ε : Type) [DecidableEq α] :
    (∀ (env : Env α) (fuel : Nat) (st : LangGraphCoordinator α ε) (cnt : Nat)
        (st' : LangGraphCoordinator α ε) (cnt' : Nat) (E : MCPMessage α),
      LangGraphCoordinator.run_once env fuel st cnt = some (st', cnt') →
      (∀ c m, E ∉ LangGraphCoordinator.produced env st.nodes st.edges c m) →
      st'.consumers_log.count E =
        st.consumers_log.count E + st.msg_queue.count E)
    ∧ (∀ (env : Env α) (st : LangGraphCoordinator α ε) (cnt : Nat)
        (msg : MCPMessage α) (tn : String),
      msg.name = some tn → st.nodes tn = none →
      LangGraphCoordinator.dispatch env st cnt msg =
        ({ st with consumers_log := st.consumers_log ++ [msg] }, cnt))
    ∧ (∀ (st : LangGraphCoordinator α ε) (cid : String),
      LangGraphCoordinator.get_conversation_events st (some cid) =
          st.consumers_log.filter (fun m => get_conversation_id m = some cid)
        ∧ (LangGraphCoordinator.get_conversation_events st (some cid)).Sublist
            st.consumers_log
        ∧ LangGraphCoordinator.get_conversation_events st none =
            st.consumers_log) := by
  refine ⟨?_, ?_, ?_⟩
  · intro env fuel st cnt st' cnt' E h hno
    exact LangGraphCoordinator.run_once_count env E fuel st cnt st' cnt' h hno
  · intro env st cnt msg tn hname hnone
    rw [LangGraphCoordinator.dispatch_spec]
    simp [LangGraphCoordinator.produced, LangGraphCoordinator.uuidsUsed,
      hname, hnone]
  · intro st cid
    exact ⟨rfl, List.filter_sublist _, rfl⟩

/-- An envelope addressed to the unregistered node `X`. -/
def msgXW : MCPMessage String :=
  { role := some "user"
    name := some "X"
    content := "hello"
    metadata := some ⟨some "t0", some "cid-9"⟩ }

/-- Empty-registry coordinator with `msgXW` queued. -/
def stXW : LangGraphCoordinator String Unit :=
  { (LangGraphCoordinator.init : LangGraphCoordinator String Unit) with
    msg_queue := [msgXW] }

/-- The state after draining `stXW`. -/
def stXW' : LangGraphCoordinator String Unit :=
  { stXW with msg_queue := [], consumers_log := [msgXW] }

/-- Witness for claim C5 at the unregistered-target envelope `msgXW`:
after one drain it is logged exactly once, its dispatch produced no
follow-up, and the conversation query returns it. -/
theorem submitted_envelopes_logged_once_witness :
    (LangGraphCoordinator.run_once envW 1 stXW 0 = some (stXW', 0)
      ∧ stXW'.consumers_log.count msgXW =
          stXW.consumers_log.count msgXW + stXW.msg_queue.count msgXW)
    ∧ (msgXW.name = some "X" ∧ stXW.nodes "X" = none ∧
      LangGraphCoordinator.dispatch envW stXW 0 msgXW =
        ({ stXW with consumers_log := stXW.consumers_log ++ [msgXW] }, 0))
    ∧ LangGraphCoordinator.get_conversation_events stXW' (some "cid-9") =
        stXW'.consumers_log.filter (fun m => get_conversation_id m = some "cid-9") := by
  have hno : ∀ c m, msgXW ∉ LangGraphCoordinator.produced envW stXW.nodes
      stXW.edges c m := by
    intro c m
    cases hm : m.name with
    | none => simp [LangGraphCoordinator.produced, hm]
    | some tn =>
      simp [LangGraphCoordinator.produced, hm, stXW, LangGraphCoordinator.init]
  refine ⟨⟨rfl, ?_⟩, ⟨rfl, rfl, ?_⟩, ?_⟩
  · exact (submitted_envelopes_logged_once String Unit).1 envW 1 stXW 0
      stXW' 0 msgXW rfl hno
  · exact (submitted_envelopes_logged_once String Unit).2.1 envW stXW 0
      msgXW "X" rfl rfl
  · exact ((submitted_envelopes_logged_once String Unit).2.2 stXW' "cid-9").1

/-! ## Claim C6 — run_once drains transitively-produced work -/

/-- Claim C6: whenever a `run_once` call returns (the `while` loop's
emptiness re-check finally succeeds), the queue is empty on return, and
the conversation log has grown by exactly the envelopes queued at call
time, in order, followed by the envelopes enqueued as a side effect of
dispatch during the same call — all transitively-produced work was
dispatched inside this single call. -/
theorem drain_processes_transitive_work (α ε : Type) (env : Env α)
    (fuel : Nat) (st : LangGraphCoordinator α ε) (cnt : Nat)
    (st' : LangGraphCoordinator α ε) (cnt' : Nat)
    (h : LangGraphCoordinator.run_once env fuel st cnt = some (st', cnt')) :
    st'.msg_queue = [] ∧
      ∃ extra, st'.consumers_log = st.consumers_log ++ st.msg_queue ++ extra :=
  LangGraphCoordinator.run_once_drains env fuel st cnt st' cnt' h

/-- The first edge-routed envelope of the witness run. -/
def mBW : MCPMessage String :=
  create_mcp_message "node" "B" "payload" none envW.now (envW.uuid 0)

/-- The second edge-routed envelope of the witness run. -/
def mCW : MCPMessage String :=
  create_mcp_message "node" "C" "payload" none envW.now (envW.uuid 1)

/-- `stW` with the triggering envelope queued. -/
def stWqW : LangGraphCoordinator String Unit :=
  { stW with msg_queue := [triggerW] }

/-- The state after draining `stWqW`: the trigger was dispatched, its
two routed follow-ups were enqueued during the call and then dispatched
(logged and dropped — `B`, `C` are unregistered) in the same call. -/
def stWqFinalW : LangGraphCoordinator String Unit :=
  { stW with msg_queue := [], consumers_log := [triggerW, mBW, mCW] }

/-- Witness for claim C6: a three-dispatch drain whose second and third
dispatches handle envelopes produced during the same call. -/
theorem drain_processes_transitive_work_witness :
    LangGraphCoordinator.run_once envW 3 stWqW 0 = some (stWqFinalW, 2)
    ∧ (stWqFinalW.msg_queue = [] ∧
        ∃ extra, stWqFinalW.consumers_log =
          stWqW.consumers_log ++ stWqW.msg_queue ++ extra) :=
  ⟨rfl, drain_processes_transitive_work String Unit envW 3 stWqW 0
    stWqFinalW 2 rfl⟩
